import Mathlib

/-
Verification of the achievements-worker event pipeline.

The TypeScript sources are shallowly embedded: JavaScript dynamic values
become the inductive type JsVal, IEEE doubles are modelled as rationals
(with separate NaN / Infinity constructors where the code can observe
them), database tables become association lists threaded through the
operations, and fallible store operations return Except.  Timestamps are
modelled as integers counted in minutes.
-/

namespace AchvWorker

/-- JavaScript numbers: a finite value (modelled as a rational), NaN, or a
signed infinity.  Double rounding is not modelled. -/
inductive JsNum where
  | fin (q : ℚ)
  | nan
  | inf (pos : Bool)
deriving DecidableEq

/-- JavaScript dynamic values as the worker manipulates them: the JSON
values plus `undefined`.  Objects are association lists in insertion
order; the worker never builds objects with duplicate keys. -/
inductive JsVal where
  | undef
  | null
  | bool (b : Bool)
  | num (n : JsNum)
  | str (s : String)
  | arr (elems : List JsVal)
  | obj (fields : List (String × JsVal))

/-- util.ts isNumber: `typeof value === 'number' && !isNaN(value) && isFinite(value)`. -/
def isNumber : JsVal → Bool
  | .num (.fin _) => true
  | _ => false

/-- util.ts isObject: non-null, typeof object, not an array. -/
def isObject : JsVal → Bool
  | .obj _ => true
  | _ => false

/-- util.ts isArray. -/
def isArray : JsVal → Bool
  | .arr _ => true
  | _ => false

/-- JavaScript truthiness (`!!v`): false for `undefined`, `null`, `false`,
`0`, `NaN` and the empty string; true otherwise. -/
def truthy : JsVal → Bool
  | .undef => false
  | .null => false
  | .bool b => b
  | .num (.fin q) => decide (q ≠ 0)
  | .num .nan => false
  | .num (.inf _) => true
  | .str s => decide (s ≠ "")
  | .arr _ => true
  | .obj _ => true

/-- First-match association lookup, modelling property read on an object
(the worker never builds objects with duplicate keys). -/
def lookupField (fields : List (String × JsVal)) (k : String) : Option JsVal :=
  (fields.find? (fun kv => kv.1 = k)).map (·.2)

/-- Array indexing by a property key string: JavaScript `arr[key]` yields an
element only for a canonical numeric index, otherwise `undefined`. -/
def arrIndex (xs : List JsVal) (k : String) : JsVal :=
  match k.toNat? with
  | some n => if toString n = k then xs.getD n .undef else .undef
  | none => (.undef)

/-- Splits a string at '.' characters, the `path.split('.')` of util.ts
(implemented over the character list so that it evaluates in the kernel). -/
def splitDotAux : List Char → List Char → List String
  | [], acc => [String.mk acc.reverse]
  | c :: cs, acc =>
    if c = '.' then String.mk acc.reverse :: splitDotAux cs [] else splitDotAux cs (c :: acc)

/-- util.ts get, the loop body: walk the remaining keys; a non-object
(including null / undefined) met before the keys run out gives `undefined`. -/
def getKeys : List String → JsVal → JsVal
  | [], cur => cur
  | k :: ks, cur =>
    match cur with
    | .obj fields =>
      getKeys ks (match lookupField fields k with | some v => v | none => .undef)
    | .arr xs => getKeys ks (arrIndex xs k)
    | _ => (.undef)

/-- util.ts get: dotted-path lookup into a dynamic value. -/
def get (v : JsVal) (path : String) : JsVal :=
  getKeys (splitDotAux path.data []) v

/-- rules.ts EvaluationContext: exactly three scopes, each a flat mapping. -/
structure EvaluationContext where
  per_game : List (String × JsVal)
  season : List (String × JsVal)
  career : List (String × JsVal)

/-- The evaluation context seen as the dynamic object the dotted-path
lookups of the evaluator walk into. -/
def contextToVal (ctx : EvaluationContext) : JsVal :=
  .obj [("per_game", .obj ctx.per_game), ("season", .obj ctx.season),
        ("career", .obj ctx.career)]

/-- JavaScript strict equality `===` on the values the evaluator compares:
primitives by value with `NaN === NaN` false; two object or array operands
are compared by reference in JavaScript and the evaluator never aliases
them, so they are modelled as distinct. -/
def jsStrictEq : JsVal → JsVal → Bool
  | .undef, .undef => true
  | .null, .null => true
  | .bool a, .bool b => decide (a = b)
  | .num (.fin a), .num (.fin b) => decide (a = b)
  | .num (.inf p), .num (.inf q) => decide (p = q)
  | .str a, .str b => decide (a = b)
  | _, _ => false

/-- rules.ts getArithmeticOperator: division by zero yields zero; unknown
operators give the constant-zero function. -/
def getArithmeticOperator (op : String) : ℚ → ℚ → ℚ :=
  if op = "+" then fun a b => a + b
  else if op = "-" then fun a b => a - b
  else if op = "*" then fun a b => a * b
  else if op = "/" then fun a b => if b ≠ 0 then a / b else 0
  else fun _ _ => 0

/-- Membership test used by resolveValue for `['+','-','*','/'].includes(operator)`. -/
def isArithOp (op : String) : Bool :=
  ["+", "-", "*", "/"].contains op

/-- The four comparison closures `(a, b) => a >= b` and so on that
evaluateNode passes to handleComparison, selected by the operator token
(closures cannot be passed through the structural recursion, so the
handler receives the token instead). -/
def getComparisonOperator (op : String) : ℚ → ℚ → Bool :=
  if op = ">=" then fun a b => decide (b ≤ a)
  else if op = ">" then fun a b => decide (b < a)
  else if op = "<=" then fun a b => decide (a ≤ b)
  else if op = "<" then fun a b => decide (a < b)
  else fun _ _ => false

/-- The core of rules.ts handleComparison after both sides are resolved:
false unless both are finite numbers, else the comparison closure selected
by the operator token (left operand first, as in the source). -/
def compareResolved (op : String) (l r : JsVal) : Bool :=
  match l, r with
  | .num (.fin a), .num (.fin b) => getComparisonOperator op a b
  | _, _ => false

/-- The core of rules.ts handleArithmetic after both sides are resolved:
zero unless both are finite numbers. -/
def arithResolved (op : String) (l r : JsVal) : ℚ :=
  match l, r with
  | .num (.fin a), .num (.fin b) => getArithmeticOperator op a b
  | _, _ => 0

/-- The core of rules.ts handleEquality after both sides are resolved:
strict (in)equality, `negated` selecting between the `==` and `!=`
closures. -/
def equalityResolved (negated : Bool) (l r : JsVal) : Bool :=
  if negated then !(jsStrictEq l r) else jsStrictEq l r

/-- The core of rules.ts handleHas after both sides are resolved: the
first value must be an object, the second a string; true iff the key is
present. -/
def hasResolved (l r : JsVal) : Bool :=
  match l, r with
  | .obj fields, .str key => fields.any (fun kv => kv.1 = key)
  | _, _ => false

mutual

/-- rules.ts evaluateNode: booleans pass through, strings and numbers are
taken by truthiness, non-objects are false, an object must have exactly
one key naming an operator, and unknown operators give false.  The
operator dispatch is the separate function `evalOp` and the handlers are
inlined into it, so that every recursive call is on a strict subterm;
the context parameter comes first throughout this block for the same
reason. -/
def evaluateNode (ctx : EvaluationContext) (node : JsVal) : Bool :=
  match node with
  | .bool b => b
  | .str s => truthy (.str s)
  | .num n => truthy (.num n)
  | .undef => false
  | .null => false
  | .arr _ => false
  | .obj fields =>
    match fields with
    | [(op, args)] => evalOp ctx op args
    | _ => false

/-- The `switch (operator)` of rules.ts evaluateNode with the bodies of
handleComparison, handleEquality, handleLogical, handleNot,
handleArithmetic and handleHas inlined: each case checks the argument
array and its arity, resolves the operands, and applies the corresponding
resolved-value core. -/
def evalOp (ctx : EvaluationContext) (op : String) (args : JsVal) : Bool :=
  if op = ">=" ∨ op = ">" ∨ op = "<=" ∨ op = "<" then
    -- handleComparison
    match args with
    | .arr [a, b] => compareResolved op (resolveValue ctx a) (resolveValue ctx b)
    | _ => false
  else if op = "==" ∨ op = "!=" then
    -- handleEquality
    match args with
    | .arr [a, b] => equalityResolved (op = "!=") (resolveValue ctx a) (resolveValue ctx b)
    | _ => false
  else if op = "and" then
    -- handleLogical, every-child
    match args with
    | .arr xs => evalAll ctx xs
    | _ => false
  else if op = "or" then
    -- handleLogical, some-child
    match args with
    | .arr xs => evalAny ctx xs
    | _ => false
  else if op = "not" then
    -- handleNot
    match args with
    | .arr [a] => !(evaluateNode ctx a)
    | _ => false
  else if isArithOp op then
    -- handleArithmetic, truthy as a boolean iff non-zero
    match args with
    | .arr [a, b] =>
      decide (arithResolved op (resolveValue ctx a) (resolveValue ctx b) ≠ 0)
    | _ => decide ((0 : ℚ) ≠ 0)
  else if op = "has" then
    -- handleHas
    match args with
    | .arr [a, b] => hasResolved (resolveValue ctx a) (resolveValue ctx b)
    | _ => false
  else false

/-- Short-circuit `args.every(arg => evaluateNode(arg, context))`. -/
def evalAll (ctx : EvaluationContext) (xs : List JsVal) : Bool :=
  match xs with
  | [] => true
  | x :: rest => evaluateNode ctx x && evalAll ctx rest

/-- Short-circuit `args.some(arg => evaluateNode(arg, context))`. -/
def evalAny (ctx : EvaluationContext) (xs : List JsVal) : Bool :=
  match xs with
  | [] => false
  | x :: rest => evaluateNode ctx x || evalAny ctx rest

/-- rules.ts resolveValue: a string containing '.' is a dotted path into
the context; a single-key object naming an arithmetic operator yields its
numeric result (the body of handleArithmetic, inlined); any other object
is evaluated as a boolean (the source calls `evaluateNode(value)` there;
on a single-key object that is exactly `evalOp`, and on any other object
it is false); everything else is returned as-is. -/
def resolveValue (ctx : EvaluationContext) (value : JsVal) : JsVal :=
  match value with
  | .str s =>
    if s.data.contains '.' then get (contextToVal ctx) s else .str s
  | .obj fields =>
    match fields with
    | [(op, args)] =>
      if isArithOp op then
        .num (.fin (match args with
          | .arr [a, b] => arithResolved op (resolveValue ctx a) (resolveValue ctx b)
          | _ => 0))
      else .bool (evalOp ctx op args)
    | _ => .bool false
  | v => v

end

/-- rules.ts evalPredicate: wraps evaluateNode in a try/catch reporting
false.  evaluateNode is a total function of its arguments, so the catch
branch is unreachable and the wrapper is the identity on its result. -/
def evalPredicate (predicate : JsVal) (ctx : EvaluationContext) : Bool :=
  evaluateNode ctx predicate


/-! ## Canonical JSON (util.ts canonicalJson) -/

/-- Object.keys: own enumerable keys of a value.  For strings and arrays
these are the index strings; for null and undefined Object.keys throws a
TypeError, modelled as `none`. -/
def objectKeys (v : JsVal) : Option (List String) :=
  match v with
  | .undef => none
  | .null => none
  | .bool _ => some []
  | .num _ => some []
  | .str s => some ((List.range s.length).map (fun n => toString n))
  | .arr xs => some ((List.range xs.length).map (fun n => toString n))
  | .obj fs => some (fs.map Prod.fst)

/-- Code-unit lexicographic order on character lists, the default
Array.prototype.sort comparison for strings. -/
def charListLe : List Char → List Char → Bool
  | [], _ => true
  | _ :: _, [] => false
  | a :: as, b :: bs => if a = b then charListLe as bs else decide (a.toNat < b.toNat)

/-- Code-unit lexicographic order on strings. -/
def strLeb (a b : String) : Bool :=
  charListLe a.data b.data

/-- Lowercase hexadecimal digit, for JSON control-character escapes. -/
def hexDigit (n : ℕ) : Char :=
  "0123456789abcdef".data.getD n '0'

/-- JSON.stringify escaping of one character inside a quoted string. -/
def quoteJsonChar (c : Char) : List Char :=
  if c = '"' then ['\\', '"']
  else if c = '\\' then ['\\', '\\']
  else if c = '\x08' then ['\\', 'b']
  else if c = '\x0c' then ['\\', 'f']
  else if c = '\n' then ['\\', 'n']
  else if c = '\r' then ['\\', 'r']
  else if c = '\t' then ['\\', 't']
  else if c.toNat < 32 then
    ['\\', 'u', '0', '0', hexDigit (c.toNat / 16), hexDigit (c.toNat % 16)]
  else [c]

/-- JSON string quoting. -/
def quoteJson (s : String) : String :=
  "\"" ++ String.mk ((s.data.map quoteJsonChar).flatten) ++ "\""

/-- JSON.stringify of a number: NaN and the infinities serialize as
"null"; integral values print without a decimal point.  The shortest
round-trip decimal printing of non-integral doubles is not modelled; every
number the worker serializes in the claims below is integral. -/
def jsNumToJson (n : JsNum) : String :=
  match n with
  | .nan => "null"
  | .inf _ => "null"
  | .fin q => if q.den = 1 then toString q.num else toString q

/-- Walks the property list in order, emitting `"key":value` for each key
present on the object whose value did not serialize to undefined. -/
def stringifyEntries (pl : List String) (serFields : List (String × Option String)) :
    List String :=
  pl.filterMap (fun k =>
    match serFields.find? (fun kv => kv.1 = k) with
    | none => none
    | some (_, none) => none
    | some (_, some sv) => some (quoteJson k ++ ":" ++ sv))

mutual

/-- JSON.stringify with an array replacer: the property list `pl` filters
and orders the keys of every object at every level; properties that are
missing or whose value is undefined are skipped; undefined array elements
serialize as null; an undefined top-level value serializes to undefined
(`none`). -/
def stringifyWith (pl : List String) (v : JsVal) : Option String :=
  match v with
  | .undef => none
  | .null => some "null"
  | .bool b => some (if b then "true" else "false")
  | .num n => some (jsNumToJson n)
  | .str s => some (quoteJson s)
  | .arr xs => some ("[" ++ String.intercalate "," (stringifyElems pl xs) ++ "]")
  | .obj fs =>
    some ("\x7b" ++ String.intercalate "," (stringifyEntries pl (stringifyFields pl fs)) ++ "\x7d")

/-- Serializes every array element, with undefined becoming "null". -/
def stringifyElems (pl : List String) (xs : List JsVal) : List String :=
  match xs with
  | [] => []
  | x :: rest =>
    (match stringifyWith pl x with | some s => s | none => "null") :: stringifyElems pl rest

/-- Serializes every field value of an object up front, so that the
property-list walk below is non-recursive. -/
def stringifyFields (pl : List String) (fs : List (String × JsVal)) :
    List (String × Option String) :=
  match fs with
  | [] => []
  | (k, v) :: rest => (k, stringifyWith pl v) :: stringifyFields pl rest

end

/-- util.ts canonicalJson: `JSON.stringify(obj, Object.keys(obj).sort())`.
Object.keys throws on null and undefined (`none`); otherwise the sorted
top-level key list is used as the stringify replacer array, which both
orders keys and restricts every object at every level to those keys. -/
def canonicalJson (v : JsVal) : Option String :=
  match objectKeys v with
  | none => none
  | some ks =>
    stringifyWith ((ks.insertionSort (fun a b => strLeb a b = true)).eraseDups) v

/-! ## Badge rendering (svg.ts) -/

/-- svg.ts BadgeTemplate.  Width and height are the integers 300 and 200
in every template the worker uses; the unused optional iconPath is
omitted. -/
structure BadgeTemplate where
  backgroundColor : String
  textColor : String
  accentColor : String
  width : ℤ
  height : ℤ
deriving DecidableEq

/-- svg.ts DEFAULT_TEMPLATE. -/
def DEFAULT_TEMPLATE : BadgeTemplate :=
  { backgroundColor := "#1a1a2e", textColor := "#ffffff", accentColor := "#ffd700",
    width := 300, height := 200 }

/-- svg.ts getTierTemplate: palette by lower-cased tier, defaulting to the
neutral template. -/
def getTierTemplate (tier : String) : BadgeTemplate :=
  let t := tier.toLower
  if t = "bronze" then { DEFAULT_TEMPLATE with backgroundColor := "#2c1810", accentColor := "#cd7f32" }
  else if t = "silver" then { DEFAULT_TEMPLATE with backgroundColor := "#1a1a1a", accentColor := "#c0c0c0" }
  else if t = "gold" then { DEFAULT_TEMPLATE with backgroundColor := "#1a1a0e", accentColor := "#ffd700" }
  else if t = "platinum" then { DEFAULT_TEMPLATE with backgroundColor := "#0e1a1a", accentColor := "#e5e4e2" }
  else if t = "legendary" then { DEFAULT_TEMPLATE with backgroundColor := "#1a0e1a", accentColor := "#ff00ff" }
  else DEFAULT_TEMPLATE

/-- String.prototype.replace with a global single-character pattern:
every occurrence of `c` becomes `rep`. -/
def replaceChar (c : Char) (rep : String) (s : String) : String :=
  String.mk ((s.data.map (fun x => if x = c then rep.data else [x])).flatten)

/-- svg.ts escapeXml: a falsy argument (undefined or the empty string)
gives the empty string; otherwise the five XML-special characters are
replaced by entities, ampersands first. -/
def escapeXml (u : Option String) : String :=
  match u with
  | none => ""
  | some s =>
    if s = "" then ""
    else
      replaceChar '\'' "&#039;"
        (replaceChar '"' "&quot;"
          (replaceChar '>' "&gt;"
            (replaceChar '<' "&lt;"
              (replaceChar '&' "&amp;" s))))

/-- The award record renderBadgeSVG receives (a Partial of awards.ts
PlayerAward): every field may be absent. -/
structure BadgeAward where
  id : Option String
  rule_id : Option String
  player_id : Option String
  title : Option String
  tier : Option String
  awarded_at : Option String
  stats : JsVal
  issuer : Option String
  version : Option String

/-- JavaScript `x || dflt` on an optional string: the default is taken for
undefined and for the empty string. -/
def jsOrStr (o : Option String) (dflt : String) : String :=
  match o with
  | none => dflt
  | some s => if s = "" then dflt else s

/-- Template-literal interpolation of a possibly-undefined string:
`String(undefined)` is "undefined". -/
def templStr (o : Option String) : String :=
  match o with
  | none => "undefined"
  | some s => s

/-- Lifts an optional string into the metadata object (absent fields are
undefined and are skipped by JSON.stringify). -/
def optStr (o : Option String) : JsVal :=
  match o with
  | none => .undef
  | some s => .str s

/-- svg.ts formatDate: falsy input gives the empty string; the
locale-dependent Date formatting itself cannot be embedded and is the
parameter `fmtDate`. -/
def formatDate (fmtDate : String → String) (dateString : Option String) : String :=
  match dateString with
  | none => ""
  | some s => if s = "" then "" else fmtDate s

/-- The metadata object renderBadgeSVG embeds, in source field order. -/
def badgeMetadata (award : BadgeAward) : JsVal :=
  .obj [("award_id", optStr award.id),
        ("rule_id", optStr award.rule_id),
        ("player_id", optStr award.player_id),
        ("title", optStr award.title),
        ("tier", optStr award.tier),
        ("awarded_at", optStr award.awarded_at),
        ("stats", award.stats),
        ("issuer", .str (jsOrStr award.issuer "BodegaCatsGC")),
        ("version", .str (jsOrStr award.version "1.0"))]

/-- svg.ts renderBadgeSVG: the SVG template literal with every
award-derived interpolation escaped by escapeXml and the template fields
interpolated raw.  canonicalJson of the metadata object is always `some`
because the metadata is an object; `.getD ""` mirrors that no other case
can occur. -/
def renderBadgeSVG (fmtDate : String → String) (award : BadgeAward)
    (template : BadgeTemplate) : String :=
  let metadataJson := (canonicalJson (badgeMetadata award)).getD ""
  let w := template.width
  let h := template.height
  "<?xml version=\"1.0\" encoding=\"UTF-8\"?>\n" ++
  "<svg width=\"" ++ toString w ++ "\" height=\"" ++ toString h ++
    "\" viewBox=\"0 0 " ++ toString w ++ " " ++ toString h ++
    "\" xmlns=\"http://www.w3.org/2000/svg\">\n" ++
  "  <title>" ++ escapeXml (some (jsOrStr award.title "Achievement Badge")) ++ "</title>\n" ++
  "  <desc>" ++
    escapeXml (some (templStr award.title ++ " - " ++ templStr award.tier ++
      " tier achievement awarded by " ++ jsOrStr award.issuer "BodegaCatsGC")) ++
    "</desc>\n" ++
  "  <metadata>" ++ escapeXml (some metadataJson) ++ "</metadata>\n" ++
  "  \n" ++
  "  <!-- Background -->\n" ++
  "  <rect width=\"100%\" height=\"100%\" fill=\"" ++ template.backgroundColor ++
    "\" rx=\"12\" ry=\"12\"/>\n" ++
  "  \n" ++
  "  <!-- Border -->\n" ++
  "  <rect x=\"4\" y=\"4\" width=\"" ++ toString (w - 8) ++ "\" height=\"" ++
    toString (h - 8) ++ "\" \n" ++
  "        fill=\"none\" stroke=\"" ++ template.accentColor ++
    "\" stroke-width=\"2\" rx=\"8\" ry=\"8\"/>\n" ++
  "  \n" ++
  "  <!-- Title -->\n" ++
  "  <text x=\"" ++ toString (w / 2) ++ "\" y=\"40\" \n" ++
  "        font-family=\"Arial, sans-serif\" font-size=\"18\" font-weight=\"bold\" \n" ++
  "        text-anchor=\"middle\" fill=\"" ++ template.textColor ++ "\">\n" ++
  "    " ++ escapeXml (some (jsOrStr award.title "Achievement")) ++ "\n" ++
  "  </text>\n" ++
  "  \n" ++
  "  <!-- Tier -->\n" ++
  "  <text x=\"" ++ toString (w / 2) ++ "\" y=\"65\" \n" ++
  "        font-family=\"Arial, sans-serif\" font-size=\"14\" \n" ++
  "        text-anchor=\"middle\" fill=\"" ++ template.accentColor ++ "\">\n" ++
  "    " ++ escapeXml (some (jsOrStr award.tier "Bronze")) ++ " Tier\n" ++
  "  </text>\n" ++
  "  \n" ++
  "  <!-- Achievement Icon/Shape -->\n" ++
  "  <circle cx=\"" ++ toString (w / 2) ++ "\" cy=\"120\" r=\"30\" \n" ++
  "          fill=\"" ++ template.accentColor ++ "\" opacity=\"0.3\"/>\n" ++
  "  <circle cx=\"" ++ toString (w / 2) ++ "\" cy=\"120\" r=\"20\" \n" ++
  "          fill=\"" ++ template.accentColor ++ "\"/>\n" ++
  "  \n" ++
  "  <!-- Star in center -->\n" ++
  "  <polygon points=\"" ++ toString (w / 2) ++ ",105 " ++ toString (w / 2 + 5) ++
    ",115 " ++ toString (w / 2 + 15) ++ ",115 " ++ toString (w / 2 + 7) ++ ",123 " ++
    toString (w / 2 + 10) ++ ",135 " ++ toString (w / 2) ++ ",128 " ++
    toString (w / 2 - 10) ++ ",135 " ++ toString (w / 2 - 7) ++ ",123 " ++
    toString (w / 2 - 15) ++ ",115 " ++ toString (w / 2 - 5) ++ ",115\"\n" ++
  "           fill=\"" ++ template.backgroundColor ++ "\"/>\n" ++
  "  \n" ++
  "  <!-- Date -->\n" ++
  "  <text x=\"" ++ toString (w / 2) ++ "\" y=\"175\" \n" ++
  "        font-family=\"Arial, sans-serif\" font-size=\"10\" \n" ++
  "        text-anchor=\"middle\" fill=\"" ++ template.textColor ++ "\" opacity=\"0.7\">\n" ++
  "    " ++ escapeXml (some (formatDate fmtDate award.awarded_at)) ++ "\n" ++
  "  </text>\n" ++
  "  \n" ++
  "  <!-- Issuer -->\n" ++
  "  <text x=\"" ++ toString (w / 2) ++ "\" y=\"190\" \n" ++
  "        font-family=\"Arial, sans-serif\" font-size=\"8\" \n" ++
  "        text-anchor=\"middle\" fill=\"" ++ template.textColor ++ "\" opacity=\"0.5\">\n" ++
  "    " ++ escapeXml (some (jsOrStr award.issuer "BodegaCatsGC")) ++ "\n" ++
  "  </text>\n" ++
  "</svg>"


/-! ## Counter store (counters.ts) -/

/-- counters.ts PerGameStats: the thirteen numeric per-game keys.  The
values are finite JavaScript numbers, modelled as rationals. -/
structure PerGameStats where
  points : ℚ
  ast : ℚ
  reb : ℚ
  stl : ℚ
  blk : ℚ
  tov : ℚ
  minutes : ℚ
  fgm : ℚ
  fga : ℚ
  tpm : ℚ
  tpa : ℚ
  ftm : ℚ
  fta : ℚ
deriving DecidableEq

/-- index.ts extractPerGameStats getNumber: a numeric payload value is
kept, anything else defaults to 0.  Payloads are parsed JSON, which cannot
contain NaN or an infinity, so only finite numbers occur; the unreachable
non-finite constructors also map to 0 here. -/
def getNumber (payload : List (String × JsVal)) (key : String) : ℚ :=
  match lookupField payload key with
  | some (.num (.fin q)) => q
  | _ => 0

/-- index.ts extractPerGameStats: missing and non-numeric keys are zero. -/
def extractPerGameStats (payload : List (String × JsVal)) : PerGameStats :=
  { points := getNumber payload "points"
    ast := getNumber payload "ast"
    reb := getNumber payload "reb"
    stl := getNumber payload "stl"
    blk := getNumber payload "blk"
    tov := getNumber payload "tov"
    minutes := getNumber payload "minutes"
    fgm := getNumber payload "fgm"
    fga := getNumber payload "fga"
    tpm := getNumber payload "tpm"
    tpa := getNumber payload "tpa"
    ftm := getNumber payload "ftm"
    fta := getNumber payload "fta" }

/-- The per_game scope of the evaluation context, in the field order of
the extractPerGameStats return literal. -/
def perGameToObj (stats : PerGameStats) : List (String × JsVal) :=
  [("points", .num (.fin stats.points)),
   ("ast", .num (.fin stats.ast)),
   ("reb", .num (.fin stats.reb)),
   ("stl", .num (.fin stats.stl)),
   ("blk", .num (.fin stats.blk)),
   ("tov", .num (.fin stats.tov)),
   ("minutes", .num (.fin stats.minutes)),
   ("fgm", .num (.fin stats.fgm)),
   ("fga", .num (.fin stats.fga)),
   ("tpm", .num (.fin stats.tpm)),
   ("tpa", .num (.fin stats.tpa)),
   ("ftm", .num (.fin stats.ftm)),
   ("fta", .num (.fin stats.fta))]

/-- counters.ts achievement flags. -/
structure AchievementFlags where
  has_50pt_game : Bool
  has_triple_double : Bool
  has_double_double : Bool
deriving DecidableEq

/-- counters.ts detectAchievementFlags: 50-point games by points alone;
double/triple double by the number of double-digit categories among
points, assists, rebounds, steals and blocks. -/
def detectAchievementFlags (stats : PerGameStats) : AchievementFlags :=
  let categories := [stats.points, stats.ast, stats.reb, stats.stl, stats.blk]
  let doubleDigitCategories := (categories.filter (fun val => decide (10 ≤ val))).length
  { has_50pt_game := decide (50 ≤ stats.points)
    has_triple_double := decide (3 ≤ doubleDigitCategories)
    has_double_double := decide (2 ≤ doubleDigitCategories) }

/-- One row of public.player_counters, in the column order of the source
queries.  The audit timestamps are omitted (no claim concerns them), and
player ids are the strings the pipeline passes. -/
structure CountersRow where
  player_id : String
  scope : String
  season_id : Option String
  games_played : ℕ
  minutes_total : ℚ
  pts_total : ℚ
  ast_total : ℚ
  reb_total : ℚ
  stl_total : ℚ
  blk_total : ℚ
  tov_total : ℚ
  fgm_total : ℚ
  fga_total : ℚ
  tpm_total : ℚ
  tpa_total : ℚ
  ftm_total : ℚ
  fta_total : ℚ
  has_50pt_game : Bool
  has_triple_double : Bool
  has_double_double : Bool
  max_pts_game : ℚ
  max_ast_game : ℚ
  max_reb_game : ℚ
  max_stl_game : ℚ
  max_blk_game : ℚ
deriving DecidableEq

/-- The INSERT arm of the counters upsert: games_played = 1, totals and
maxima from the single game, flags from the single game. -/
def insertCountersRow (pid : String) (scope : String) (sid : Option String)
    (stats : PerGameStats) : CountersRow :=
  let flags := detectAchievementFlags stats
  { player_id := pid, scope := scope, season_id := sid
    games_played := 1
    minutes_total := stats.minutes, pts_total := stats.points
    ast_total := stats.ast, reb_total := stats.reb, stl_total := stats.stl
    blk_total := stats.blk, tov_total := stats.tov, fgm_total := stats.fgm
    fga_total := stats.fga, tpm_total := stats.tpm, tpa_total := stats.tpa
    ftm_total := stats.ftm, fta_total := stats.fta
    has_50pt_game := flags.has_50pt_game
    has_triple_double := flags.has_triple_double
    has_double_double := flags.has_double_double
    max_pts_game := stats.points, max_ast_game := stats.ast
    max_reb_game := stats.reb, max_stl_game := stats.stl
    max_blk_game := stats.blk }

/-- The ON CONFLICT DO UPDATE arm of the counters upsert: totals add,
games_played increments, flags OR, maxima take GREATEST. -/
def mergeCountersRow (r : CountersRow) (stats : PerGameStats) : CountersRow :=
  let flags := detectAchievementFlags stats
  { r with
    games_played := r.games_played + 1
    minutes_total := r.minutes_total + stats.minutes
    pts_total := r.pts_total + stats.points
    ast_total := r.ast_total + stats.ast
    reb_total := r.reb_total + stats.reb
    stl_total := r.stl_total + stats.stl
    blk_total := r.blk_total + stats.blk
    tov_total := r.tov_total + stats.tov
    fgm_total := r.fgm_total + stats.fgm
    fga_total := r.fga_total + stats.fga
    tpm_total := r.tpm_total + stats.tpm
    tpa_total := r.tpa_total + stats.tpa
    ftm_total := r.ftm_total + stats.ftm
    fta_total := r.fta_total + stats.fta
    has_50pt_game := r.has_50pt_game || flags.has_50pt_game
    has_triple_double := r.has_triple_double || flags.has_triple_double
    has_double_double := r.has_double_double || flags.has_double_double
    max_pts_game := max r.max_pts_game stats.points
    max_ast_game := max r.max_ast_game stats.ast
    max_reb_game := max r.max_reb_game stats.reb
    max_stl_game := max r.max_stl_game stats.stl
    max_blk_game := max r.max_blk_game stats.blk }

/-- Key equality for the counters upsert.  Modelled from the spec: the
unique index on (player_id, scope, season_id) required by section 6 of the
spec lives in the database schema, which is not part of the sources; a
NULL season_id is treated as an ordinary key value so that career rows
conflict with career rows. -/
def countersKeyEq (pid : String) (scope : String) (sid : Option String)
    (r : CountersRow) : Bool :=
  r.player_id = pid && r.scope = scope && r.season_id = sid

/-- The counters upsert against the table: merge into the existing row for
the key, or append a fresh row. -/
def upsertCounters (pid : String) (scope : String) (sid : Option String)
    (stats : PerGameStats) (tbl : List CountersRow) : List CountersRow :=
  if tbl.any (countersKeyEq pid scope sid) then
    tbl.map (fun r => if countersKeyEq pid scope sid r then mergeCountersRow r stats else r)
  else
    tbl ++ [insertCountersRow pid scope sid stats]

/-- counters.ts updateCareerCounters: scope career, season_id NULL. -/
def updateCareerCounters (pid : String) (stats : PerGameStats)
    (tbl : List CountersRow) : List CountersRow :=
  upsertCounters pid "career" none stats tbl

/-- counters.ts updateSeasonCounters: scope season with the given
season id. -/
def updateSeasonCounters (pid : String) (sid : String) (stats : PerGameStats)
    (tbl : List CountersRow) : List CountersRow :=
  upsertCounters pid "season" (some sid) stats tbl

/-- counters.ts fetchPlayerCounters: one query for the career row and the
season row.  In SQL `season_id = $2` is false when the parameter is NULL,
so without a season id only the career row can match. -/
def fetchPlayerCounters (pid : String) (sid : Option String)
    (tbl : List CountersRow) : Option CountersRow × Option CountersRow :=
  let rows := tbl.filter (fun r =>
    r.player_id = pid &&
      ((r.scope = "career" && r.season_id = none) ||
       (r.scope = "season" && sid.isSome && r.season_id = sid)))
  (rows.find? (fun r => r.scope = "career"), rows.find? (fun r => r.scope = "season"))

/-- A counters row as the evaluator sees it in the season / career scope,
in the column order of the fetch query (audit timestamps omitted). -/
def rowToObj (r : CountersRow) : List (String × JsVal) :=
  [("player_id", .str r.player_id),
   ("scope", .str r.scope),
   ("season_id", match r.season_id with | some s => .str s | none => .null),
   ("games_played", .num (.fin (r.games_played : ℚ))),
   ("minutes_total", .num (.fin r.minutes_total)),
   ("pts_total", .num (.fin r.pts_total)),
   ("ast_total", .num (.fin r.ast_total)),
   ("reb_total", .num (.fin r.reb_total)),
   ("stl_total", .num (.fin r.stl_total)),
   ("blk_total", .num (.fin r.blk_total)),
   ("tov_total", .num (.fin r.tov_total)),
   ("fgm_total", .num (.fin r.fgm_total)),
   ("fga_total", .num (.fin r.fga_total)),
   ("tpm_total", .num (.fin r.tpm_total)),
   ("tpa_total", .num (.fin r.tpa_total)),
   ("ftm_total", .num (.fin r.ftm_total)),
   ("fta_total", .num (.fin r.fta_total)),
   ("has_50pt_game", .bool r.has_50pt_game),
   ("has_triple_double", .bool r.has_triple_double),
   ("has_double_double", .bool r.has_double_double),
   ("max_pts_game", .num (.fin r.max_pts_game)),
   ("max_ast_game", .num (.fin r.max_ast_game)),
   ("max_reb_game", .num (.fin r.max_reb_game)),
   ("max_stl_game", .num (.fin r.max_stl_game)),
   ("max_blk_game", .num (.fin r.max_blk_game))]

/-- One counter-store call, for quantifying over update sequences. -/
inductive CounterOp where
  | career (pid : String) (stats : PerGameStats)
  | season (pid : String) (sid : String) (stats : PerGameStats)

/-- The stats carried by a counter-store call. -/
def CounterOp.stats : CounterOp → PerGameStats
  | .career _ s => s
  | .season _ _ s => s

/-- Applies one counter-store call to the table. -/
def applyCounterOp (tbl : List CountersRow) : CounterOp → List CountersRow
  | .career pid s => updateCareerCounters pid s tbl
  | .season pid sid s => updateSeasonCounters pid sid s tbl

/-- Applies a sequence of counter-store calls. -/
def runCounterOps (ops : List CounterOp) (tbl : List CountersRow) : List CountersRow :=
  ops.foldl applyCounterOp tbl

/-- All thirteen per-game values are nonnegative. -/
def statsNonneg (s : PerGameStats) : Prop :=
  0 ≤ s.points ∧ 0 ≤ s.ast ∧ 0 ≤ s.reb ∧ 0 ≤ s.stl ∧ 0 ≤ s.blk ∧ 0 ≤ s.tov ∧
  0 ≤ s.minutes ∧ 0 ≤ s.fgm ∧ 0 ≤ s.fga ∧ 0 ≤ s.tpm ∧ 0 ≤ s.tpa ∧ 0 ≤ s.ftm ∧ 0 ≤ s.fta

/-- The spec's counters-row invariant: at least one game, and every total
at least the corresponding per-game maximum, itself nonnegative. -/
def counterRowInv (r : CountersRow) : Prop :=
  1 ≤ r.games_played ∧
  r.max_pts_game ≤ r.pts_total ∧ 0 ≤ r.max_pts_game ∧
  r.max_ast_game ≤ r.ast_total ∧ 0 ≤ r.max_ast_game ∧
  r.max_reb_game ≤ r.reb_total ∧ 0 ≤ r.max_reb_game ∧
  r.max_stl_game ≤ r.stl_total ∧ 0 ≤ r.max_stl_game ∧
  r.max_blk_game ≤ r.blk_total ∧ 0 ≤ r.max_blk_game

/-- Flag monotonicity between two rows: no flag moves from true to false. -/
def flagsLe (r r2 : CountersRow) : Prop :=
  (r.has_50pt_game = true → r2.has_50pt_game = true) ∧
  (r.has_triple_double = true → r2.has_triple_double = true) ∧
  (r.has_double_double = true → r2.has_double_double = true)

/-! ## Queue driver (queue.ts) -/

/-- The queue row lifecycle states. -/
inductive QueueStatus where
  | queued
  | processing
  | done
  | error
deriving DecidableEq

/-- One row of public.event_queue.  Timestamps are integers counted in
minutes. -/
structure QueueRow where
  id : ℕ
  event_id : String
  status : QueueStatus
  attempts : ℕ
  visible_at : ℤ
  last_error : Option String
  updated_at : ℤ
deriving DecidableEq

/-- queue.ts claimBatch: the store failure `fault` propagates (the catch
rethrows); otherwise the visible queued rows, ordered by id, are taken up
to the batch size, atomically set to processing, and their (id, event_id)
pairs returned. -/
def claimBatch (fault : Option String) (batchSize : ℕ) (now : ℤ)
    (q : List QueueRow) : Except String (List (ℕ × String) × List QueueRow) :=
  match fault with
  | some e => .error e
  | none =>
    let eligible := (q.filter (fun r => r.status = .queued && r.visible_at ≤ now))
    let items := ((eligible.insertionSort (fun a b => a.id ≤ b.id)).take batchSize)
    let ids := items.map (fun r => r.id)
    .ok (items.map (fun r => (r.id, r.event_id)),
      q.map (fun r =>
        if ids.contains r.id then { r with status := .processing, updated_at := now } else r))

/-- queue.ts markDone: the store failure propagates; otherwise every row
in the id list becomes done (the source guards the empty list by returning
early, which updates nothing, as here). -/
def markDone (fault : Option String) (now : ℤ) (queueIds : List ℕ)
    (q : List QueueRow) : Except String (List QueueRow) :=
  match fault with
  | some e => .error e
  | none =>
    .ok (q.map (fun r =>
      if queueIds.contains r.id then { r with status := .done, updated_at := now } else r))

/-- queue.ts markRetry: reads the current attempts (a missing row throws),
increments them, and either exhausts the item to error at MAX_ATTEMPTS or
reschedules it with exponential backoff 2^min(attempts, 7) minutes. -/
def markRetry (fault : Option String) (maxAttempts : ℕ) (now : ℤ) (queueId : ℕ)
    (errorMessage : String) (q : List QueueRow) : Except String (List QueueRow) :=
  match fault with
  | some e => .error e
  | none =>
    match q.find? (fun r => r.id = queueId) with
    | none => .error ("Queue item " ++ toString queueId ++ " not found")
    | some row =>
      let newAttempts := row.attempts + 1
      if maxAttempts ≤ newAttempts then
        .ok (q.map (fun r =>
          if r.id = queueId then
            { r with status := .error, attempts := newAttempts,
                     last_error := some errorMessage, updated_at := now }
          else r))
      else
        let backoffMinutes : ℤ := 2 ^ (min newAttempts 7)
        .ok (q.map (fun r =>
          if r.id = queueId then
            { r with status := .queued, attempts := newAttempts,
                     last_error := some errorMessage,
                     visible_at := now + backoffMinutes, updated_at := now }
          else r))

/-- queue.ts getQueueLag: the count of visible queued rows; the catch
swallows a store failure, logs it, and returns 0. -/
def getQueueLag (fault : Option String) (now : ℤ) (q : List QueueRow) : ℕ :=
  match fault with
  | some _ => 0
  | none => (q.filter (fun r => r.status = .queued && r.visible_at ≤ now)).length

/-- The healthz response body of index.ts, reduced to the fields the spec
names. -/
structure HealthResponse where
  code : ℕ
  status : String
  queueLag : Option ℕ
deriving DecidableEq

/-- The healthz handler branch structure of index.ts: 200 with the lag
when the awaited call returns, 503 when it throws. -/
def healthzWith (lagResult : Except String ℕ) : HealthResponse :=
  match lagResult with
  | .ok n => { code := 200, status := "ok", queueLag := some n }
  | .error _ => { code := 503, status := "error", queueLag := none }

/-- The healthz endpoint: getQueueLag is a total function even under a
store fault, so the handler always takes the 200 branch. -/
def healthz (fault : Option String) (now : ℤ) (q : List QueueRow) : HealthResponse :=
  healthzWith (.ok (getQueueLag fault now q))

/-- Queue tables reachable through the queue driver from exogenous
enqueues (spec section 3: items are created in `queued`, attempts start at
zero), with a healthy store. -/
inductive QueueReachable (maxAttempts : ℕ) : List QueueRow → Prop where
  | empty : QueueReachable maxAttempts []
  | enqueue (q : List QueueRow) (id : ℕ) (eid : String) (vis upd : ℤ) :
      QueueReachable maxAttempts q →
      QueueReachable maxAttempts (q ++ [⟨id, eid, .queued, 0, vis, none, upd⟩])
  | claim (q : List QueueRow) (batchSize : ℕ) (now : ℤ) (items : List (ℕ × String))
      (q2 : List QueueRow) :
      QueueReachable maxAttempts q →
      claimBatch none batchSize now q = .ok (items, q2) →
      QueueReachable maxAttempts q2
  | markedDone (q : List QueueRow) (now : ℤ) (ids : List ℕ) (q2 : List QueueRow) :
      QueueReachable maxAttempts q →
      markDone none now ids q = .ok q2 →
      QueueReachable maxAttempts q2
  | retried (q : List QueueRow) (now : ℤ) (qid : ℕ) (msg : String) (q2 : List QueueRow) :
      QueueReachable maxAttempts q →
      markRetry none maxAttempts now qid msg q = .ok q2 →
      QueueReachable maxAttempts q2

/-! ## Award ledger (awards.ts) -/

/-- Rule scopes accepted by the pipeline. -/
inductive RuleScope where
  | per_game
  | season
  | career
deriving DecidableEq

/-- rules.ts AchievementRule (audit timestamps omitted). -/
structure AchievementRule where
  id : String
  title : String
  description : String
  predicate : JsVal
  scope : RuleScope
  tier : String
  game_year : Option String
  league_id : Option String
  season_id : Option String
  is_active : Bool

/-- rules.ts fetchCandidateRules: active rules whose optional filters are
each unset or equal to the argument, ordered by id.  In SQL a comparison
with a NULL parameter is false, so a rule with a set filter never matches
a missing argument; `scope IN (per_game, season, career)` is always true
here because the scope field is typed. -/
def fetchCandidateRules (gameYear leagueId seasonId : Option String)
    (tbl : List AchievementRule) : List AchievementRule :=
  (tbl.filter (fun r =>
    r.is_active &&
    (r.game_year.isNone || (gameYear.isSome && r.game_year = gameYear)) &&
    (r.league_id.isNone || (leagueId.isSome && r.league_id = leagueId)) &&
    (r.season_id.isNone || (seasonId.isSome && r.season_id = seasonId)))).insertionSort
    (fun a b => strLeb a.id b.id = true)

/-- One row of public.player_awards.  The stats column stores the
canonical-JSON snapshot string the insert sends; issuer and version are
the literals of the INSERT. -/
structure AwardRow where
  id : ℕ
  rule_id : String
  player_id : String
  scope_key : Option String
  level : ℕ
  title : String
  tier : String
  game_year : Option String
  league_id : Option String
  season_id : Option String
  match_id : Option String
  awarded_at : String
  stats_json : String
  issuer : String
  version : String
  asset_svg_url : Option String
deriving DecidableEq

/-- awards.ts AwardInsertData. -/
structure AwardInsertData where
  rule_id : String
  player_id : String
  scope_key : Option String
  level : ℕ
  title : String
  tier : String
  game_year : Option String
  league_id : Option String
  season_id : Option String
  match_id : Option String
  stats : JsVal

/-- The award table plus the synthetic id sequence. -/
structure AwardsState where
  rows : List AwardRow
  nextId : ℕ

/-- The ON CONFLICT target of insertAward.  Modelled from the spec: the
unique index on (player_id, rule_id, scope_key, level) required by section
6 of the spec lives in the database schema, which is not part of the
sources; a NULL scope_key is treated as an ordinary key value. -/
def awardConflict (d : AwardInsertData) (r : AwardRow) : Bool :=
  r.player_id = d.player_id && r.rule_id = d.rule_id &&
  r.scope_key = d.scope_key && r.level = d.level

/-- awards.ts insertAward: serializes the stats snapshot with
canonicalJson (which throws on null or undefined stats, before the query),
then INSERT ... ON CONFLICT DO NOTHING RETURNING id: a conflicting insert
changes nothing and yields null, a fresh insert appends one row and yields
its id.  A store failure is rethrown by the catch; the id sequence and
NOW() are the nextId counter and the nowIso parameter. -/
def insertAward (nowIso : String) (d : AwardInsertData) (st : AwardsState) :
    Except String (Option ℕ × AwardsState) :=
  match canonicalJson d.stats with
  | none => .error "TypeError: Object.keys called on null or undefined"
  | some statsJson =>
    if st.rows.any (awardConflict d) then
      .ok (none, st)
    else
      .ok (some st.nextId,
        { rows := st.rows ++
            [{ id := st.nextId, rule_id := d.rule_id, player_id := d.player_id,
               scope_key := d.scope_key, level := d.level, title := d.title,
               tier := d.tier, game_year := d.game_year, league_id := d.league_id,
               season_id := d.season_id, match_id := d.match_id,
               awarded_at := nowIso, stats_json := statsJson,
               issuer := "BodegaCatsGC", version := "1.0", asset_svg_url := none }],
          nextId := st.nextId + 1 })

/-- awards.ts attachAssetUrl: sets asset_svg_url unconditionally on the
row; zero updated rows is an error. -/
def attachAssetUrl (awardId : ℕ) (assetUrl : String) (st : AwardsState) :
    Except String AwardsState :=
  if st.rows.any (fun r => r.id = awardId) then
    .ok { st with rows := st.rows.map (fun r =>
      if r.id = awardId then { r with asset_svg_url := some assetUrl } else r) }
  else
    .error ("Award " ++ toString awardId ++ " not found")

/-- awards.ts determineScopeKey: match for per_game, season for season,
undefined for career. -/
def determineScopeKey (rule : AchievementRule) (matchId seasonId : Option String) :
    Option String :=
  match rule.scope with
  | .per_game => matchId
  | .season => seasonId
  | .career => none

/-- awards.ts determineLevel: all awards are level 1 for now. -/
def determineLevel (_rule : AchievementRule) : ℕ :=
  1

/-- Calls insertAward k times with identical input, collecting results. -/
def insertAwardTimes (nowIso : String) (d : AwardInsertData) :
    ℕ → AwardsState → List (Except String (Option ℕ)) × AwardsState
  | 0, st => ([], st)
  | k + 1, st =>
    match insertAward nowIso d st with
    | .ok (r, st1) =>
      let rest := insertAwardTimes nowIso d k st1
      (.ok r :: rest.1, rest.2)
    | .error e =>
      let rest := insertAwardTimes nowIso d k st
      (.error e :: rest.1, rest.2)

/-! ## Event pipeline and supervisor loop (index.ts) -/

/-- queue.ts EventData. -/
structure EventData where
  id : String
  event_type : String
  payload : List (String × JsVal)
  player_id : Option String
  match_id : Option String
  season_id : Option String
  league_id : Option String
  game_year : Option String
  occurred_at : String

/-- The state the pipeline writes: counters, awards, uploaded blobs. -/
structure PipelineState where
  counters : List CountersRow
  awards : AwardsState
  blobs : List (String × String)

/-- Worker configuration and ambient effects for one loop iteration:
sizes and the retry threshold from env.ts, the clock (nowIso for stored
timestamps, now in minutes for the queue), the locale date formatter, the
asset url prefix, and the object-store fault injection by key (uploadOk
false makes the upload of that key throw). -/
structure WorkerConfig where
  batchSize : ℕ
  maxAttempts : ℕ
  publicBaseUrl : String
  nowIso : String
  now : ℤ
  fmtDate : String → String
  uploadOk : String → Bool

/-- One step of the rule loop of index.ts processPlayerStatEvent: the
whole body runs in a try whose catch logs and continues with the next
rule, so every failure (award insert, render, upload, attach) leaves the
state reached so far and never propagates. -/
def processRule (cfg : WorkerConfig) (ev : EventData) (pid : String)
    (stats : PerGameStats) (seasonObj careerObj : List (String × JsVal))
    (ctx : EvaluationContext) (p : PipelineState) (rule : AchievementRule) :
    PipelineState :=
  if evalPredicate rule.predicate ctx then
    let scopeKey := determineScopeKey rule ev.match_id ev.season_id
    let level := determineLevel rule
    let awardData : AwardInsertData :=
      { rule_id := rule.id, player_id := pid, scope_key := scopeKey, level := level,
        title := rule.title, tier := rule.tier, game_year := ev.game_year,
        league_id := ev.league_id, season_id := ev.season_id, match_id := ev.match_id,
        stats := .obj [("per_game", .obj (perGameToObj stats)),
                       ("season", .obj seasonObj),
                       ("career", .obj careerObj),
                       ("rule_predicate", rule.predicate)] }
    match insertAward cfg.nowIso awardData p.awards with
    | .error _ => p
    | .ok (none, a1) => { p with awards := a1 }
    | .ok (some awardId, a1) =>
      let template := getTierTemplate rule.tier
      let award : BadgeAward :=
        { id := some (toString awardId), rule_id := some rule.id,
          player_id := some pid, title := some rule.title, tier := some rule.tier,
          awarded_at := some cfg.nowIso, stats := awardData.stats,
          issuer := none, version := none }
      let key := "badges/" ++ pid ++ "/" ++ toString awardId ++ ".svg"
      let svg := renderBadgeSVG cfg.fmtDate award template
      if cfg.uploadOk key then
        let url := cfg.publicBaseUrl ++ "/" ++ key
        let blobs1 := p.blobs ++ [(key, svg)]
        match attachAssetUrl awardId url a1 with
        | .ok a2 => { p with awards := a2, blobs := blobs1 }
        | .error _ => { p with awards := a1, blobs := blobs1 }
      else
        { p with awards := a1 }
  else p

/-- index.ts processPlayerStatEvent: require player_id, extract stats,
update career (and season, when a season id is present) counters, re-read
counters, build the evaluation context, fetch candidate rules, and run the
rule loop. -/
def processPlayerStatEvent (cfg : WorkerConfig) (rulesTable : List AchievementRule)
    (ev : EventData) (p : PipelineState) : Except String PipelineState :=
  match ev.player_id with
  | none => .error "player_stat_event missing player_id"
  | some pid =>
    let stats := extractPerGameStats ev.payload
    let c1 := updateCareerCounters pid stats p.counters
    let c2 :=
      match ev.season_id with
      | some sid => updateSeasonCounters pid sid stats c1
      | none => c1
    let fetched := fetchPlayerCounters pid ev.season_id c2
    let careerObj := match fetched.1 with | some r => rowToObj r | none => []
    let seasonObj := match fetched.2 with | some r => rowToObj r | none => []
    let ctx : EvaluationContext :=
      { per_game := perGameToObj stats, season := seasonObj, career := careerObj }
    let rules := fetchCandidateRules ev.game_year ev.league_id ev.season_id rulesTable
    .ok (rules.foldl (processRule cfg ev pid stats seasonObj careerObj ctx)
      { p with counters := c2 })

/-- index.ts processEvent: player_stat_event runs the pipeline,
match_event is a logged no-op, unknown types are logged and treated as
success. -/
def processEvent (cfg : WorkerConfig) (rulesTable : List AchievementRule)
    (ev : EventData) (p : PipelineState) : Except String PipelineState :=
  if ev.event_type = "player_stat_event" then
    processPlayerStatEvent cfg rulesTable ev p
  else if ev.event_type = "match_event" then
    .ok p
  else
    .ok p

/-- The whole store-visible state one loop iteration works on. -/
structure WorldState where
  queue : List QueueRow
  events : List EventData
  pipe : PipelineState

/-- queue.ts loadEvents: the events whose ids are requested, ordered by
id; the empty request loads nothing. -/
def loadEvents (eventIds : List String) (events : List EventData) : List EventData :=
  if eventIds.isEmpty then []
  else
    (events.filter (fun e => eventIds.contains e.id)).insertionSort
      (fun a b => strLeb a.id b.id = true)

/-- The per-item loop of index.ts startProcessingLoop: a missing event or
a failed pipeline marks the item for retry, a processed item joins the
done list; a markRetry failure escapes to the outer catch, abandoning the
rest of the batch (the Bool result records that escape). -/
def processItems (cfg : WorkerConfig) (rulesTable : List AchievementRule)
    (evs : List EventData) :
    List (ℕ × String) → WorldState → List ℕ → WorldState × List ℕ × Bool
  | [], w, doneIds => (w, doneIds, false)
  | (qid, eid) :: rest, w, doneIds =>
    match evs.find? (fun e => e.id = eid) with
    | none =>
      match markRetry none cfg.maxAttempts cfg.now qid ("Event " ++ eid ++ " not found") w.queue with
      | .ok q2 => processItems cfg rulesTable evs rest { w with queue := q2 } doneIds
      | .error _ => (w, doneIds, true)
    | some ev =>
      match processEvent cfg rulesTable ev w.pipe with
      | .ok p2 => processItems cfg rulesTable evs rest { w with pipe := p2 } (doneIds ++ [qid])
      | .error msg =>
        match markRetry none cfg.maxAttempts cfg.now qid msg w.queue with
        | .ok q2 => processItems cfg rulesTable evs rest { w with queue := q2 } doneIds
        | .error _ => (w, doneIds, true)

/-- One iteration of index.ts startProcessingLoop with a healthy store:
claim a batch, load its events, process each item, and mark the processed
ones done.  Errors reaching the outer catch leave the state already
written and sleep. -/
def runIteration (cfg : WorkerConfig) (rulesTable : List AchievementRule)
    (w : WorldState) : WorldState :=
  match claimBatch none cfg.batchSize cfg.now w.queue with
  | .error _ => w
  | .ok (items, q1) =>
    let evs := loadEvents (items.map (fun it => it.2)) w.events
    match processItems cfg rulesTable evs items { w with queue := q1 } [] with
    | (w2, doneIds, aborted) =>
      if aborted then w2
      else if 0 < doneIds.length then
        match markDone none cfg.now doneIds w2.queue with
        | .ok q2 => { w2 with queue := q2 }
        | .error _ => w2
      else w2

/-! ## Concrete scenarios used by the theorems -/

/-- A 52-point stat event for player p1 in season s1, match m1. -/
def ev52 : EventData :=
  { id := "e1", event_type := "player_stat_event",
    payload := [("points", .num (.fin 52)), ("ast", .num (.fin 4)), ("reb", .num (.fin 6))],
    player_id := some "p1", match_id := some "m1", season_id := some "s1",
    league_id := none, game_year := none, occurred_at := "2026-01-01T00:00:00Z" }

/-- An active per-game rule firing at 50 points. -/
def rule50 : AchievementRule :=
  { id := "r1", title := "50 Bomb", description := "Score 50 points in a game",
    predicate := .obj [(">=", .arr [.str "per_game.points", .num (.fin 50)])],
    scope := .per_game, tier := "Gold",
    game_year := none, league_id := none, season_id := none, is_active := true }

/-- A second active per-game rule firing at 40 points. -/
def rule40 : AchievementRule :=
  { rule50 with
    id := "r2"
    title := "40 Club"
    predicate := .obj [(">=", .arr [.str "per_game.points", .num (.fin 40)])] }

/-- The rule with the spec's predicate typo per_game.pointz. -/
def ruleTypo : AchievementRule :=
  { rule50 with
    id := "r3"
    title := "Typo"
    predicate := .obj [(">=", .arr [.str "per_game.pointz", .num (.fin 50)])] }

/-- A world with one queued item over the 52-point event and empty
pipeline state. -/
def world0 : WorldState :=
  { queue := [{ id := 1, event_id := "e1", status := .queued, attempts := 0,
                visible_at := 0, last_error := none, updated_at := 0 }],
    events := [ev52],
    pipe := { counters := [], awards := { rows := [], nextId := 1 }, blobs := [] } }

/-- A configuration whose object store accepts every upload. -/
def cfgHealthy : WorkerConfig :=
  { batchSize := 50, maxAttempts := 10, publicBaseUrl := "https://cdn.example.com",
    nowIso := "2026-01-01T00:00:00Z", now := 0,
    fmtDate := fun _ => "Jan 1, 2026", uploadOk := fun _ => true }

/-- A configuration whose object store rejects exactly the first badge
key of the scenario, so the first rule's upload throws. -/
def cfgUploadFail : WorkerConfig :=
  { cfgHealthy with uploadOk := fun k => decide (k ≠ "badges/p1/1.svg") }

/-- The counterexample departure for the counters invariant: a single
negative payload value. -/
def negStats : PerGameStats :=
  { points := -1, ast := 0, reb := 0, stl := 0, blk := 0, tov := 0, minutes := 0,
    fgm := 0, fga := 0, tpm := 0, tpa := 0, ftm := 0, fta := 0 }

/-- The nested-object input on which canonicalJson drops a key. -/
def c2nested : JsVal :=
  .obj [("b", .num (.fin 1)), ("a", .obj [("c", .num (.fin 2))])]

/-- A different value with the same canonical serialization. -/
def c2collapsed : JsVal :=
  .obj [("a", .obj []), ("b", .num (.fin 1))]


/-- The per-character XML entity map that the escapeXml replacement chain
implements. -/
def xmlEntityOf (c : Char) : List Char :=
  if c = '&' then "&amp;".data
  else if c = '<' then "&lt;".data
  else if c = '>' then "&gt;".data
  else if c = '"' then "&quot;".data
  else if c = '\'' then "&#039;".data
  else [c]

/-- Occurrences of a character in a string. -/
def countChar (c : Char) (s : String) : ℕ :=
  s.data.count c

/-- A context whose per_game.points is 0, to separate bare-string
truthiness from path resolution. -/
def ctxPointsZero : EvaluationContext :=
  { per_game := [("points", .num (.fin 0))], season := [], career := [] }

/-- The row insertAward appends on a fresh insert, as a function of the
input, the assigned id, and the serialized stats snapshot. -/
def mkAwardRow (nowIso : String) (d : AwardInsertData) (awardId : ℕ)
    (statsJson : String) : AwardRow :=
  { id := awardId, rule_id := d.rule_id, player_id := d.player_id,
    scope_key := d.scope_key, level := d.level, title := d.title,
    tier := d.tier, game_year := d.game_year, league_id := d.league_id,
    season_id := d.season_id, match_id := d.match_id,
    awarded_at := nowIso, stats_json := statsJson,
    issuer := "BodegaCatsGC", version := "1.0", asset_svg_url := none }

/-- One global single-character replacement at the character-list level;
replaceChar is String.mk of this. -/
def escStep (c : Char) (rep : List Char) (l : List Char) : List Char :=
  (l.map (fun x => if x = c then rep else [x])).flatten

/-! ## Theorems -/

/-- C5: evalPredicate is total, pure and deterministic — it is definable
as a total Lean function on every predicate value, so it returns a
boolean without raising on arbitrary (also malformed) trees and the
try/catch wrapper never changes its result; arrays, null, undefined,
zero-key and multi-key objects and unknown operators all evaluate to
false instead of failing the event. -/
theorem C5_evalPredicate_total :
    (∀ (p : JsVal) (ctx : EvaluationContext), evalPredicate p ctx = evaluateNode ctx p) ∧
    (∀ (p : JsVal) (ctx : EvaluationContext),
      evalPredicate p ctx = true ∨ evalPredicate p ctx = false) ∧
    (∀ (ctx : EvaluationContext) (xs : List JsVal), evalPredicate (.arr xs) ctx = false) ∧
    (∀ ctx : EvaluationContext, evalPredicate .null ctx = false) ∧
    (∀ ctx : EvaluationContext, evalPredicate .undef ctx = false) ∧
    (∀ ctx : EvaluationContext, evalPredicate (.obj []) ctx = false) ∧
    (∀ (ctx : EvaluationContext) (f g : String × JsVal) (rest : List (String × JsVal)),
      evalPredicate (.obj (f :: g :: rest)) ctx = false) ∧
    (∀ (ctx : EvaluationContext) (xs : List JsVal),
      evalPredicate (.obj [("frobnicate", .arr xs)]) ctx = false) := by
  refine ⟨fun p ctx => rfl, fun p ctx => ?_, fun ctx xs => rfl, fun ctx => rfl,
    fun ctx => rfl, fun ctx => rfl, fun ctx f g rest => ?_, fun ctx xs => rfl⟩
  · cases h : evalPredicate p ctx
    · exact Or.inr rfl
    · exact Or.inl rfl
  · cases f
    rfl

/-- C10: a bare number or string in boolean position evaluates to its
JavaScript truthiness — false exactly for 0, NaN and the empty string —
and this holds for strings containing a dot: the path-like string
per_game.points is a truthy literal even in a context where resolving
that path would yield the falsy number 0. -/
theorem C10_truthiness_of_literals :
    (∀ (ctx : EvaluationContext) (q : ℚ),
      evalPredicate (.num (.fin q)) ctx = decide (q ≠ 0)) ∧
    (∀ ctx : EvaluationContext, evalPredicate (.num .nan) ctx = false) ∧
    (∀ (ctx : EvaluationContext) (p : Bool), evalPredicate (.num (.inf p)) ctx = true) ∧
    (∀ (ctx : EvaluationContext) (s : String),
      evalPredicate (.str s) ctx = decide (s ≠ "")) ∧
    evalPredicate (.str "per_game.points") ctxPointsZero = true ∧
    truthy (resolveValue ctxPointsZero (.str "per_game.points")) = false := by
  exact ⟨fun ctx q => rfl, fun ctx => rfl, fun ctx p => rfl, fun ctx s => rfl,
    by decide, by decide⟩

/-- C2: canonicalJson is not a canonicalization.  The replacer array
`Object.keys(obj).sort()` restricts every nested object to the top-level
keys, so the nested input \x7b"b":1,"a":\x7b"c":2\x7d\x7d serializes to
\x7b"a":\x7b\x7d,"b":1\x7d — identical to the serialization of the
different value \x7b"a":\x7b\x7d,"b":1\x7d — and therefore no deserializer
can round-trip every value through canonicalJson. -/
theorem C2_canonicalJson_not_roundtrip :
    canonicalJson c2nested = some "\x7b\"a\":\x7b\x7d,\"b\":1\x7d" ∧
    canonicalJson c2nested = canonicalJson c2collapsed ∧
    c2nested ≠ c2collapsed ∧
    ¬ ∃ deserialize : Option String → JsVal,
        ∀ v : JsVal, deserialize (canonicalJson v) = v := by
  have hne : c2nested ≠ c2collapsed := by
    intro h
    simp [c2nested, c2collapsed] at h
  refine ⟨by decide, by decide, hne, ?_⟩
  rintro ⟨deserialize, hd⟩
  apply hne
  calc c2nested = deserialize (canonicalJson c2nested) := (hd c2nested).symm
    _ = deserialize (canonicalJson c2collapsed) := by rw [show canonicalJson c2nested = canonicalJson c2collapsed from by decide]
    _ = c2collapsed := hd c2collapsed

/-- C9: amended store-failure semantics.  claimBatch, markDone and
markRetry propagate a transient store failure to the caller, but
getQueueLag catches it and returns 0, so the health endpoint answers 200
with queueLag 0 instead of 503 when the lag query fails. -/
theorem C9_store_failure_semantics :
    (∀ (e : String) (batchSize : ℕ) (now : ℤ) (q : List QueueRow),
      claimBatch (some e) batchSize now q = .error e) ∧
    (∀ (e : String) (now : ℤ) (ids : List ℕ) (q : List QueueRow),
      markDone (some e) now ids q = .error e) ∧
    (∀ (e : String) (maxAttempts : ℕ) (now : ℤ) (qid : ℕ) (msg : String) (q : List QueueRow),
      markRetry (some e) maxAttempts now qid msg q = .error e) ∧
    (∀ (e : String) (now : ℤ) (q : List QueueRow), getQueueLag (some e) now q = 0) ∧
    (∀ (e : String) (now : ℤ) (q : List QueueRow),
      healthz (some e) now q = { code := 200, status := "ok", queueLag := some 0 }) :=
  ⟨fun _ _ _ _ => rfl, fun _ _ _ _ => rfl,
   fun _ _ _ _ _ _ => rfl, fun _ _ _ => rfl, fun _ _ _ => rfl⟩

/-- C9: counterexample to the claim as stated.  When the queue-lag query
fails with a transient store error, getQueueLag does not raise: it
returns the count 0 and the health endpoint answers 200, never 503. -/
theorem C9_counterexample_queue_lag_swallows :
    getQueueLag (some "connection refused") 0 [] = 0 ∧
    healthz (some "connection refused") 0 [] =
      { code := 200, status := "ok", queueLag := some 0 } ∧
    (healthz (some "connection refused") 0 []).code ≠ 503 :=
  ⟨rfl, rfl, by decide⟩


/-- C6: a comparison node evaluates to false whenever either resolved side
is not a finite number; in particular the path per_game.pointz is missing
from every pipeline-built per_game scope (whatever the payload), so the
predicate with the typo is false, no award is created, and the queue item
is marked done. -/
theorem C6_comparison_nonnumeric_false :
    (∀ op : String, op ∈ ([">=", ">", "<=", "<"] : List String) →
      ∀ (ctx : EvaluationContext) (a b : JsVal),
        isNumber (resolveValue ctx a) = false ∨ isNumber (resolveValue ctx b) = false →
        evaluateNode ctx (.obj [(op, .arr [a, b])]) = false) ∧
    (∀ (stats : PerGameStats) (seasonObj careerObj : List (String × JsVal)),
      evalPredicate ruleTypo.predicate
        { per_game := perGameToObj stats, season := seasonObj, career := careerObj } =
        false) ∧
    (runIteration cfgHealthy [ruleTypo] world0).pipe.awards.rows = [] ∧
    (runIteration cfgHealthy [ruleTypo] world0).queue.map (fun r => r.status) =
      [.done] := by
  have key : ∀ (op : String) (l r : JsVal),
      isNumber l = false ∨ isNumber r = false → compareResolved op l r = false := by
    intro op l r hlr
    unfold compareResolved
    split
    · rcases hlr with h | h <;> simp [isNumber] at h
    · rfl
  refine ⟨?_, fun stats seasonObj careerObj => rfl, by decide, by decide⟩
  intro op hop ctx a b h
  fin_cases hop
  · exact key ">=" _ _ h
  · exact key ">" _ _ h
  · exact key "<=" _ _ h
  · exact key "<" _ _ h

/-- C6 witness: the comparison conjunct applied to a side that resolves to
a non-number, and the typo conjunct applied to the empty payload. -/
theorem C6_comparison_nonnumeric_false_witness :
    evaluateNode ctxPointsZero (.obj [(">=", .arr [.str "nodot", .num (.fin 1)])]) = false ∧
    evalPredicate ruleTypo.predicate
      { per_game := perGameToObj (extractPerGameStats []), season := [], career := [] } =
      false :=
  ⟨C6_comparison_nonnumeric_false.1 ">=" (by decide) ctxPointsZero (.str "nodot")
      (.num (.fin 1)) (Or.inl (by decide)),
   C6_comparison_nonnumeric_false.2.1 (extractPerGameStats []) [] []⟩

/-- C1: evaluation of the code at the failing input.  Two rules fire for
the 52-point event and the object store rejects the first badge upload;
the per-rule catch swallows the error, so the second rule is still
evaluated and awarded — but the queue item is marked done with zero
attempts (markRetry is never called), the first award keeps a null
asset_svg_url, and only the second badge blob exists, so the first badge
is never attached. -/
theorem C1_rule_failure_item_marked_done :
    ((runIteration cfgUploadFail [rule50, rule40] world0).queue.map
      (fun r => (r.status, r.attempts)) = [(.done, 0)]) ∧
    ((runIteration cfgUploadFail [rule50, rule40] world0).pipe.awards.rows.map
      (fun r => (r.rule_id, r.asset_svg_url)) =
      [("r1", none), ("r2", some "https://cdn.example.com/badges/p1/2.svg")]) ∧
    ((runIteration cfgUploadFail [rule50, rule40] world0).pipe.blobs.map Prod.fst =
      ["badges/p1/2.svg"]) :=
  ⟨by decide, by decide, by decide⟩



/-- Once a conflicting row exists, insertAward is a no-op returning null. -/
theorem insertAward_conflict_noop (nowIso : String) (d : AwardInsertData)
    (st : AwardsState) (hs : (canonicalJson d.stats).isSome = true)
    (h : st.rows.any (awardConflict d) = true) :
    insertAward nowIso d st = .ok (none, st) := by
  obtain ⟨s, hsome⟩ := Option.isSome_iff_exists.mp hs
  unfold insertAward
  rw [hsome]
  simp [h]

/-- Once a conflicting row exists, every further identical call returns
null and leaves the state unchanged. -/
theorem insertAwardTimes_conflict (nowIso : String) (d : AwardInsertData)
    (k : ℕ) (st : AwardsState) (hs : (canonicalJson d.stats).isSome = true)
    (h : st.rows.any (awardConflict d) = true) :
    insertAwardTimes nowIso d k st = (List.replicate k (.ok none), st) := by
  induction k with
  | zero => rfl
  | succ k ih =>
    unfold insertAwardTimes
    rw [insertAward_conflict_noop nowIso d st hs h]
    simp [ih, List.replicate_succ]

/-- The fresh-insert equation of insertAward on a conflict-free table. -/
theorem insertAward_fresh (nowIso : String) (d : AwardInsertData) (st : AwardsState)
    (s : String) (hsome : canonicalJson d.stats = some s)
    (hany : st.rows.any (awardConflict d) = false) :
    insertAward nowIso d st =
      .ok (some st.nextId,
        { rows := st.rows ++ [mkAwardRow nowIso d st.nextId s],
          nextId := st.nextId + 1 }) := by
  unfold insertAward
  rw [hsome]
  simp [hany, mkAwardRow]

/-- The freshly inserted row conflicts with its own input. -/
theorem mkAwardRow_conflict (nowIso : String) (d : AwardInsertData) (awardId : ℕ)
    (s : String) : awardConflict d (mkAwardRow nowIso d awardId s) = true := by
  simp [awardConflict, mkAwardRow]

/-- C3: insertAward is idempotent on (player_id, rule_id, scope_key,
level).  Starting from a table without a conflicting row, k identical
calls insert exactly one new row, return its id on the first call and
null (as a normal result, not an error) on every later call, and leave
the whole table — the new row included — unmodified thereafter. -/
theorem C3_insertAward_idempotent :
    ∀ (nowIso : String) (d : AwardInsertData) (st : AwardsState) (k : ℕ),
      (∀ r ∈ st.rows, awardConflict d r = false) →
      (canonicalJson d.stats).isSome = true →
      1 ≤ k →
      ∃ newRow : AwardRow,
        insertAward nowIso d st =
          .ok (some st.nextId, { rows := st.rows ++ [newRow], nextId := st.nextId + 1 }) ∧
        insertAwardTimes nowIso d k st =
          (.ok (some st.nextId) :: List.replicate (k - 1) (.ok none),
            { rows := st.rows ++ [newRow], nextId := st.nextId + 1 }) ∧
        awardConflict d newRow = true ∧
        newRow.id = st.nextId ∧
        newRow.asset_svg_url = none ∧
        ((st.rows ++ [newRow]).filter (awardConflict d)).length = 1 := by
  intro nowIso d st k h1 h2 hk
  obtain ⟨s, hsome⟩ := Option.isSome_iff_exists.mp h2
  have hany : st.rows.any (awardConflict d) = false := by
    rw [List.any_eq_false]
    intro r hr
    simp [h1 r hr]
  have hnil : st.rows.filter (awardConflict d) = [] := by
    apply List.eq_nil_iff_forall_not_mem.mpr
    intro x hx
    rw [List.mem_filter] at hx
    rw [h1 x hx.1] at hx
    exact absurd hx.2 (by simp)
  refine ⟨mkAwardRow nowIso d st.nextId s, insertAward_fresh nowIso d st s hsome hany,
    ?_, mkAwardRow_conflict nowIso d st.nextId s, rfl, rfl, ?_⟩
  · obtain ⟨j, rfl⟩ : ∃ j, k = j + 1 := ⟨k - 1, (Nat.succ_pred_eq_of_pos hk).symm⟩
    have hconfApp : (AwardsState.mk (st.rows ++ [mkAwardRow nowIso d st.nextId s])
        (st.nextId + 1)).rows.any (awardConflict d) = true := by
      show (st.rows ++ [mkAwardRow nowIso d st.nextId s]).any (awardConflict d) = true
      rw [List.any_append]
      simp [mkAwardRow_conflict nowIso d st.nextId s]
    unfold insertAwardTimes
    rw [insertAward_fresh nowIso d st s hsome hany]
    simp [insertAwardTimes_conflict nowIso d j _ h2 hconfApp]
  · rw [List.filter_append, hnil]
    simp [mkAwardRow_conflict nowIso d st.nextId s]

/-- C3 witness: three identical inserts into an empty table produce one
row, the id once, and null twice. -/
theorem C3_insertAward_idempotent_witness :
    ∃ newRow : AwardRow,
      insertAward "t0"
          { rule_id := "r1", player_id := "p1", scope_key := none, level := 1,
            title := "T", tier := "Gold", game_year := none, league_id := none,
            season_id := none, match_id := none, stats := .obj [] }
          { rows := [], nextId := 1 } =
        .ok (some 1, { rows := [] ++ [newRow], nextId := 2 }) ∧
      insertAwardTimes "t0"
          { rule_id := "r1", player_id := "p1", scope_key := none, level := 1,
            title := "T", tier := "Gold", game_year := none, league_id := none,
            season_id := none, match_id := none, stats := .obj [] }
          3 { rows := [], nextId := 1 } =
        (.ok (some 1) :: List.replicate 2 (.ok none),
          { rows := [] ++ [newRow], nextId := 2 }) ∧
      awardConflict
          { rule_id := "r1", player_id := "p1", scope_key := none, level := 1,
            title := "T", tier := "Gold", game_year := none, league_id := none,
            season_id := none, match_id := none, stats := .obj [] } newRow = true ∧
      newRow.id = 1 ∧
      newRow.asset_svg_url = none ∧
      (([] ++ [newRow]).filter (awardConflict
          { rule_id := "r1", player_id := "p1", scope_key := none, level := 1,
            title := "T", tier := "Gold", game_year := none, league_id := none,
            season_id := none, match_id := none, stats := .obj [] })).length = 1 :=
  C3_insertAward_idempotent "t0" _ { rows := [], nextId := 1 } 3
    (by intro r hr; simp at hr) (by decide) (by decide)


/-- claimBatch preserves the error-attempts invariant: it only moves rows
to processing. -/
theorem claimBatch_preserves_error_inv (maxAttempts batchSize : ℕ) (now : ℤ)
    (q : List QueueRow) (items : List (ℕ × String)) (q2 : List QueueRow)
    (heq : claimBatch none batchSize now q = .ok (items, q2))
    (hinv : ∀ r ∈ q, r.status = .error → maxAttempts ≤ r.attempts) :
    ∀ r ∈ q2, r.status = .error → maxAttempts ≤ r.attempts := by
  simp only [claimBatch, Except.ok.injEq, Prod.mk.injEq] at heq
  obtain ⟨-, hq2⟩ := heq
  subst hq2
  intro r2 hr2 hstat
  rcases List.mem_map.mp hr2 with ⟨r, hr, rfl⟩
  by_cases hc : (((q.filter (fun r => r.status = .queued && r.visible_at ≤ now)).insertionSort
      (fun a b => a.id ≤ b.id)).take batchSize).map (fun r => r.id) |>.contains r.id
  · simp only [hc, if_true] at hstat ⊢
    exact absurd hstat (by simp)
  · simp only [hc, if_false] at hstat ⊢
    exact hinv r hr hstat

/-- markDone preserves the error-attempts invariant: it only moves rows to
done. -/
theorem markDone_preserves_error_inv (maxAttempts : ℕ) (now : ℤ) (ids : List ℕ)
    (q : List QueueRow) (q2 : List QueueRow)
    (heq : markDone none now ids q = .ok q2)
    (hinv : ∀ r ∈ q, r.status = .error → maxAttempts ≤ r.attempts) :
    ∀ r ∈ q2, r.status = .error → maxAttempts ≤ r.attempts := by
  simp only [markDone, Except.ok.injEq] at heq
  subst heq
  intro r2 hr2 hstat
  rcases List.mem_map.mp hr2 with ⟨r, hr, rfl⟩
  by_cases hc : ids.contains r.id
  · simp only [hc, if_true] at hstat ⊢
    exact absurd hstat (by simp)
  · simp only [hc, if_false] at hstat ⊢
    exact hinv r hr hstat

/-- markRetry preserves the error-attempts invariant: a row it moves to
error carries the incremented attempts, which just reached the
threshold. -/
theorem markRetry_preserves_error_inv (maxAttempts : ℕ) (now : ℤ) (qid : ℕ)
    (msg : String) (q : List QueueRow) (q2 : List QueueRow)
    (heq : markRetry none maxAttempts now qid msg q = .ok q2)
    (hinv : ∀ r ∈ q, r.status = .error → maxAttempts ≤ r.attempts) :
    ∀ r ∈ q2, r.status = .error → maxAttempts ≤ r.attempts := by
  unfold markRetry at heq
  cases hfind : q.find? (fun r => r.id = qid) with
  | none =>
    rw [hfind] at heq
    exact absurd heq (by simp)
  | some row =>
    rw [hfind] at heq
    simp only [] at heq
    by_cases hmax : maxAttempts ≤ row.attempts + 1
    · rw [if_pos hmax] at heq
      simp only [Except.ok.injEq] at heq
      subst heq
      intro r2 hr2 hstat
      rcases List.mem_map.mp hr2 with ⟨r, hr, rfl⟩
      by_cases hc : r.id = qid
      · simp only [hc, if_true] at hstat ⊢
        exact hmax
      · simp only [hc, if_false] at hstat ⊢
        exact hinv r hr hstat
    · rw [if_neg hmax] at heq
      simp only [Except.ok.injEq] at heq
      subst heq
      intro r2 hr2 hstat
      rcases List.mem_map.mp hr2 with ⟨r, hr, rfl⟩
      by_cases hc : r.id = qid
      · simp only [hc, if_true] at hstat ⊢
        exact absurd hstat (by simp)
      · simp only [hc, if_false] at hstat ⊢
        exact hinv r hr hstat

/-- C4: markRetry increments attempts by one and records the error; at or
above MAX_ATTEMPTS the row becomes error, below it the row is requeued
with visible_at = now + 2^min(attempts, 7) minutes; consequently on every
queue table reachable through the driver, status error implies attempts ≥
MAX_ATTEMPTS. -/
theorem C4_markRetry_backoff_and_error_invariant :
    (∀ (maxAttempts : ℕ) (now : ℤ) (qid : ℕ) (msg : String) (q : List QueueRow)
        (row : QueueRow),
      q.find? (fun r => r.id = qid) = some row →
      ∃ q2, markRetry none maxAttempts now qid msg q = .ok q2 ∧
        q2.length = q.length ∧
        (∀ r2 ∈ q2, r2.id = qid →
          r2.attempts = row.attempts + 1 ∧
          r2.last_error = some msg ∧
          (maxAttempts ≤ row.attempts + 1 → r2.status = .error) ∧
          (row.attempts + 1 < maxAttempts →
            r2.status = .queued ∧
            r2.visible_at = now + 2 ^ (min (row.attempts + 1) 7))) ∧
        (∀ r2 ∈ q2, r2.id ≠ qid → r2 ∈ q)) ∧
    (∀ (maxAttempts : ℕ) (q : List QueueRow), QueueReachable maxAttempts q →
      ∀ r ∈ q, r.status = .error → maxAttempts ≤ r.attempts) := by
  constructor
  · intro maxAttempts now qid msg q row hfind
    by_cases hmax : maxAttempts ≤ row.attempts + 1
    · refine ⟨_, by unfold markRetry; rw [hfind]; simp only []; rw [if_pos hmax],
        by rw [List.length_map], ?_, ?_⟩
      · intro r2 hr2 hid
        rcases List.mem_map.mp hr2 with ⟨r, hr, rfl⟩
        by_cases hc : r.id = qid
        · simp [hc] <;> omega
        · simp [hc] at hid
      · intro r2 hr2 hid
        rcases List.mem_map.mp hr2 with ⟨r, hr, rfl⟩
        by_cases hc : r.id = qid
        · simp [hc] at hid
        · simpa [hc] using hr
    · refine ⟨_, by unfold markRetry; rw [hfind]; simp only []; rw [if_neg hmax],
        by rw [List.length_map], ?_, ?_⟩
      · intro r2 hr2 hid
        rcases List.mem_map.mp hr2 with ⟨r, hr, rfl⟩
        by_cases hc : r.id = qid
        · simp [hc] <;> omega
        · simp [hc] at hid
      · intro r2 hr2 hid
        rcases List.mem_map.mp hr2 with ⟨r, hr, rfl⟩
        by_cases hc : r.id = qid
        · simp [hc] at hid
        · simpa [hc] using hr
  · intro maxAttempts q hreach
    induction hreach with
    | empty => intro r hr; exact absurd hr (by simp)
    | enqueue q id eid vis upd _ ih =>
      intro r hr hstat
      rcases List.mem_append.mp hr with h | h
      · exact ih r h hstat
      · rcases List.mem_singleton.mp h with rfl
        exact absurd hstat (by simp)
    | claim q batchSize now items q2 _ heq ih =>
      exact claimBatch_preserves_error_inv _ batchSize now q items q2 heq ih
    | markedDone q now ids q2 _ heq ih =>
      exact markDone_preserves_error_inv _ now ids q q2 heq ih
    | retried q now qid msg q2 _ heq ih =>
      exact markRetry_preserves_error_inv _ now qid msg q q2 heq ih

/-- C4 witness: the functional part applied to a one-row queue, and the
invariant applied to a table reached by enqueue and two retries against
MAX_ATTEMPTS = 2, where the second retry exhausts the item to error. -/
theorem C4_markRetry_backoff_and_error_invariant_witness :
    (∃ q2, markRetry none 10 0 1 "boom" [⟨1, "e1", .processing, 0, 5, none, 7⟩] = .ok q2 ∧
      q2.length = [(⟨1, "e1", .processing, 0, 5, none, 7⟩ : QueueRow)].length ∧
      (∀ r2 ∈ q2, r2.id = 1 →
        r2.attempts = 0 + 1 ∧
        r2.last_error = some "boom" ∧
        (10 ≤ 0 + 1 → r2.status = .error) ∧
        (0 + 1 < 10 →
          r2.status = .queued ∧ r2.visible_at = 0 + 2 ^ (min (0 + 1) 7))) ∧
      (∀ r2 ∈ q2, r2.id ≠ 1 →
        r2 ∈ [(⟨1, "e1", .processing, 0, 5, none, 7⟩ : QueueRow)])) ∧
    (∀ r ∈ [(⟨1, "e1", .error, 2, 2, some "y", 0⟩ : QueueRow)],
      r.status = .error → 2 ≤ r.attempts) := by
  constructor
  · exact C4_markRetry_backoff_and_error_invariant.1 10 0 1 "boom" _
      ⟨1, "e1", .processing, 0, 5, none, 7⟩ rfl
  · exact C4_markRetry_backoff_and_error_invariant.2 2 _
      (QueueReachable.retried _ 0 1 "y" _
        (QueueReachable.retried _ 0 1 "x" _
          (QueueReachable.enqueue [] 1 "e1" 0 0 QueueReachable.empty) rfl) rfl)


/-- Arithmetic core of the counters invariant: a maximum stays below the
total after adding a nonnegative game value. -/
theorem max_le_add_of_inv {a t s : ℚ} (h1 : a ≤ t) (h2 : 0 ≤ a) (h3 : 0 ≤ s) :
    max a s ≤ t + s ∧ 0 ≤ max a s :=
  ⟨max_le (by linarith) (by linarith), le_trans h2 (le_max_left a s)⟩

/-- A freshly inserted counters row satisfies the invariant when the game
stats are nonnegative. -/
theorem insertCountersRow_inv (pid scope : String) (sid : Option String)
    (stats : PerGameStats) (h : statsNonneg stats) :
    counterRowInv (insertCountersRow pid scope sid stats) := by
  obtain ⟨hp, ha, hr, hs, hb, -⟩ := h
  exact ⟨le_refl 1, le_refl _, hp, le_refl _, ha, le_refl _, hr, le_refl _, hs,
    le_refl _, hb⟩

/-- Merging nonnegative game stats preserves the counters-row invariant. -/
theorem mergeCountersRow_inv (r : CountersRow) (stats : PerGameStats)
    (hr : counterRowInv r) (h : statsNonneg stats) :
    counterRowInv (mergeCountersRow r stats) := by
  obtain ⟨hg, hpt, hpm, hat, ham, hrt, hrm, hst, hsm, hbt, hbm⟩ := hr
  obtain ⟨hp, ha, hre, hs, hb, -⟩ := h
  exact ⟨Nat.le_add_left 1 r.games_played,
    (max_le_add_of_inv hpt hpm hp).1, (max_le_add_of_inv hpt hpm hp).2,
    (max_le_add_of_inv hat ham ha).1, (max_le_add_of_inv hat ham ha).2,
    (max_le_add_of_inv hrt hrm hre).1, (max_le_add_of_inv hrt hrm hre).2,
    (max_le_add_of_inv hst hsm hs).1, (max_le_add_of_inv hst hsm hs).2,
    (max_le_add_of_inv hbt hbm hb).1, (max_le_add_of_inv hbt hbm hb).2⟩

/-- The counters upsert preserves the row invariant for nonnegative
stats. -/
theorem upsertCounters_inv (pid scope : String) (sid : Option String)
    (stats : PerGameStats) (tbl : List CountersRow)
    (hinv : ∀ r ∈ tbl, counterRowInv r) (h : statsNonneg stats) :
    ∀ r ∈ upsertCounters pid scope sid stats tbl, counterRowInv r := by
  intro r2 hr2
  unfold upsertCounters at hr2
  by_cases hc : tbl.any (countersKeyEq pid scope sid) = true
  · rw [if_pos hc] at hr2
    rcases List.mem_map.mp hr2 with ⟨r, hr, rfl⟩
    by_cases hk : countersKeyEq pid scope sid r = true
    · simp only [hk, if_true]
      exact mergeCountersRow_inv r stats (hinv r hr) h
    · simp only [hk, if_false]
      exact hinv r hr
  · rw [if_neg hc] at hr2
    rcases List.mem_append.mp hr2 with h1 | h1
    · exact hinv r2 h1
    · rcases List.mem_singleton.mp h1 with rfl
      exact insertCountersRow_inv pid scope sid stats h

/-- Every row of a table built from nonnegative update calls satisfies
the invariant. -/
theorem runCounterOps_inv :
    ∀ (ops : List CounterOp) (tbl : List CountersRow),
      (∀ r ∈ tbl, counterRowInv r) →
      (∀ op ∈ ops, statsNonneg op.stats) →
      ∀ r ∈ runCounterOps ops tbl, counterRowInv r := by
  intro ops
  induction ops with
  | nil => intro tbl hinv _ r hr; exact hinv r hr
  | cons op ops ih =>
    intro tbl hinv hops
    have hop : statsNonneg op.stats := hops op (List.mem_cons_self op ops)
    have hnext : ∀ r ∈ applyCounterOp tbl op, counterRowInv r := by
      cases op with
      | career pid s => exact upsertCounters_inv pid "career" none s tbl hinv hop
      | season pid sid s => exact upsertCounters_inv pid "season" (some sid) s tbl hinv hop
    exact ih (applyCounterOp tbl op) hnext
      (fun o ho => hops o (List.mem_cons_of_mem op ho))

/-- One update never lowers a flag and never changes a row key. -/
theorem applyCounterOp_flags_monotone (tbl : List CountersRow) (op : CounterOp)
    (r : CountersRow) (hr : r ∈ tbl) :
    ∃ r2 ∈ applyCounterOp tbl op,
      r2.player_id = r.player_id ∧ r2.scope = r.scope ∧
      r2.season_id = r.season_id ∧ flagsLe r r2 := by
  have key : ∀ (pid scope : String) (sid : Option String) (stats : PerGameStats),
      ∃ r2 ∈ upsertCounters pid scope sid stats tbl,
        r2.player_id = r.player_id ∧ r2.scope = r.scope ∧
        r2.season_id = r.season_id ∧ flagsLe r r2 := by
    intro pid scope sid stats
    unfold upsertCounters
    by_cases hc : tbl.any (countersKeyEq pid scope sid) = true
    · rw [if_pos hc]
      refine ⟨if countersKeyEq pid scope sid r then mergeCountersRow r stats else r,
        List.mem_map_of_mem _ hr, ?_⟩
      by_cases hk : countersKeyEq pid scope sid r = true
      · simp only [hk, if_true]
        refine ⟨rfl, rfl, rfl, ?_, ?_, ?_⟩ <;>
          · intro hflag
            simp [mergeCountersRow, hflag]
      · simp only [hk, if_false]
        exact ⟨rfl, rfl, rfl, fun h => h, fun h => h, fun h => h⟩
    · rw [if_neg hc]
      exact ⟨r, List.mem_append_left _ hr, rfl, rfl, rfl,
        fun h => h, fun h => h, fun h => h⟩
  cases op with
  | career pid s => exact key pid "career" none s
  | season pid sid s => exact key pid "season" (some sid) s

/-- C7 counterexample: the claim quantifies over every update sequence,
but updateCareerCounters accepts a negative payload value, and a single
game with points = -1 yields a row with max_pts_game = -1 < 0, violating
the claimed invariant *_total ≥ max_*_game ≥ 0. -/
theorem C7_counterexample_negative_stats :
    ∃ r ∈ runCounterOps [CounterOp.career "p1" negStats] [], r.max_pts_game < 0 := by
  decide

/-- C7 amended: for update sequences whose per-game stats are all
nonnegative, every resulting counters row has games_played ≥ 1 and every
total at least the matching per-game maximum, itself nonnegative; and the
three achievement flags never move from true to false across any single
update, whatever the stats. -/
theorem C7_counters_invariant_nonneg :
    (∀ ops : List CounterOp, (∀ op ∈ ops, statsNonneg op.stats) →
      ∀ r ∈ runCounterOps ops [], counterRowInv r) ∧
    (∀ (tbl : List CountersRow) (op : CounterOp) (r : CountersRow), r ∈ tbl →
      ∃ r2 ∈ applyCounterOp tbl op,
        r2.player_id = r.player_id ∧ r2.scope = r.scope ∧
        r2.season_id = r.season_id ∧ flagsLe r r2) :=
  ⟨fun ops hops => runCounterOps_inv ops [] (fun r hr => absurd hr (by simp)) hops,
   fun tbl op r hr => applyCounterOp_flags_monotone tbl op r hr⟩

/-- C7 witness: the invariant after one 52-point game, and flag
monotonicity across a follow-up update on the same key. -/
theorem C7_counters_invariant_nonneg_witness :
    (∀ r ∈ runCounterOps
        [CounterOp.career "p1" ⟨52, 4, 6, 0, 0, 0, 30, 0, 0, 0, 0, 0, 0⟩] [],
      counterRowInv r) ∧
    (∃ r2 ∈ applyCounterOp
        [insertCountersRow "p1" "career" none ⟨52, 4, 6, 0, 0, 0, 30, 0, 0, 0, 0, 0, 0⟩]
        (CounterOp.career "p1" ⟨3, 2, 1, 0, 0, 0, 10, 0, 0, 0, 0, 0, 0⟩),
      r2.player_id =
          (insertCountersRow "p1" "career" none
            ⟨52, 4, 6, 0, 0, 0, 30, 0, 0, 0, 0, 0, 0⟩).player_id ∧
        r2.scope =
          (insertCountersRow "p1" "career" none
            ⟨52, 4, 6, 0, 0, 0, 30, 0, 0, 0, 0, 0, 0⟩).scope ∧
        r2.season_id =
          (insertCountersRow "p1" "career" none
            ⟨52, 4, 6, 0, 0, 0, 30, 0, 0, 0, 0, 0, 0⟩).season_id ∧
        flagsLe (insertCountersRow "p1" "career" none
          ⟨52, 4, 6, 0, 0, 0, 30, 0, 0, 0, 0, 0, 0⟩) r2) :=
  ⟨C7_counters_invariant_nonneg.1 _
      (by
        intro op hop
        rcases List.mem_singleton.mp hop with rfl
        show statsNonneg _
        unfold statsNonneg
        simp only [CounterOp.stats]
        norm_num),
   C7_counters_invariant_nonneg.2 _ _ _ (List.mem_singleton.mpr rfl)⟩


/-- escStep distributes over list append. -/
theorem escStep_append (c : Char) (rep : List Char) (a b : List Char) :
    escStep c rep (a ++ b) = escStep c rep a ++ escStep c rep b := by
  simp [escStep]

/-- On a single character the five-step replacement chain of escapeXml
computes exactly the XML entity map. -/
theorem escSteps_single (x : Char) :
    escStep '\'' "&#039;".data (escStep '"' "&quot;".data (escStep '>' "&gt;".data
      (escStep '<' "&lt;".data (escStep '&' "&amp;".data [x])))) = xmlEntityOf x := by
  by_cases h1 : x = '&'
  · subst h1; decide
  by_cases h2 : x = '<'
  · subst h2; decide
  by_cases h3 : x = '>'
  · subst h3; decide
  by_cases h4 : x = '"'
  · subst h4; decide
  by_cases h5 : x = '\''
  · subst h5; decide
  simp [escStep, xmlEntityOf, h1, h2, h3, h4, h5]

/-- The whole replacement chain is the character-wise entity map:
ampersands are replaced first, and no later step touches the entities
already produced. -/
theorem escSteps_charwise (l : List Char) :
    escStep '\'' "&#039;".data (escStep '"' "&quot;".data (escStep '>' "&gt;".data
      (escStep '<' "&lt;".data (escStep '&' "&amp;".data l)))) =
      (l.map xmlEntityOf).flatten := by
  induction l with
  | nil => rfl
  | cons x l ih =>
    have hx : escStep '&' "&amp;".data (x :: l) =
        escStep '&' "&amp;".data [x] ++ escStep '&' "&amp;".data l := by
      simp [escStep]
    rw [hx, escStep_append, escStep_append, escStep_append, escStep_append,
      escSteps_single x, ih]
    simp

/-- escapeXml is the character-wise XML entity map (the falsy branch for
the empty string coincides with the map on no characters). -/
theorem escapeXml_charwise (s : String) :
    escapeXml (some s) = String.mk ((s.data.map xmlEntityOf).flatten) := by
  by_cases hs : s = ""
  · subst hs; rfl
  · show (if s = "" then "" else
      replaceChar '\'' "&#039;" (replaceChar '"' "&quot;" (replaceChar '>' "&gt;"
        (replaceChar '<' "&lt;" (replaceChar '&' "&amp;" s))))) = _
    rw [if_neg hs]
    exact congrArg String.mk (escSteps_charwise s.data)

/-- No XML entity contains an unescaped special character. -/
theorem xmlEntityOf_no_specials (x : Char) :
    '<' ∉ xmlEntityOf x ∧ '>' ∉ xmlEntityOf x ∧ '"' ∉ xmlEntityOf x ∧
      '\'' ∉ xmlEntityOf x := by
  by_cases h1 : x = '&'
  · subst h1; decide
  by_cases h2 : x = '<'
  · subst h2; decide
  by_cases h3 : x = '>'
  · subst h3; decide
  by_cases h4 : x = '"'
  · subst h4; decide
  by_cases h5 : x = '\''
  · subst h5; decide
  have hx : xmlEntityOf x = [x] := by simp [xmlEntityOf, h1, h2, h3, h4, h5]
  rw [hx]
  exact ⟨fun hm => h2 (List.mem_singleton.mp hm).symm,
    fun hm => h3 (List.mem_singleton.mp hm).symm,
    fun hm => h4 (List.mem_singleton.mp hm).symm,
    fun hm => h5 (List.mem_singleton.mp hm).symm⟩

/-- escapeXml output never contains these characters. -/
theorem escapeXml_no_specials (s : String) :
    '<' ∉ (escapeXml (some s)).data ∧ '>' ∉ (escapeXml (some s)).data ∧
      '"' ∉ (escapeXml (some s)).data ∧ '\'' ∉ (escapeXml (some s)).data := by
  rw [escapeXml_charwise]
  refine ⟨?_, ?_, ?_, ?_⟩
  · intro hmem
    rcases List.mem_flatten.mp hmem with ⟨piece, hp, hcmem⟩
    rcases List.mem_map.mp hp with ⟨x, hx, rfl⟩
    exact (xmlEntityOf_no_specials x).1 hcmem
  · intro hmem
    rcases List.mem_flatten.mp hmem with ⟨piece, hp, hcmem⟩
    rcases List.mem_map.mp hp with ⟨x, hx, rfl⟩
    exact (xmlEntityOf_no_specials x).2.1 hcmem
  · intro hmem
    rcases List.mem_flatten.mp hmem with ⟨piece, hp, hcmem⟩
    rcases List.mem_map.mp hp with ⟨x, hx, rfl⟩
    exact (xmlEntityOf_no_specials x).2.2.1 hcmem
  · intro hmem
    rcases List.mem_flatten.mp hmem with ⟨piece, hp, hcmem⟩
    rcases List.mem_map.mp hp with ⟨x, hx, rfl⟩
    exact (xmlEntityOf_no_specials x).2.2.2 hcmem

/-- escapeXml output has zero opening angle brackets. -/
theorem escapeXml_count_lt_zero (s : String) :
    (escapeXml (some s)).data.count '<' = 0 :=
  List.count_eq_zero.mpr (escapeXml_no_specials s).1

/-- escapeXml output has zero closing angle brackets. -/
theorem escapeXml_count_gt_zero (s : String) :
    (escapeXml (some s)).data.count '>' = 0 :=
  List.count_eq_zero.mpr (escapeXml_no_specials s).2.1

/-- Character counting distributes over string append. -/
theorem countChar_append (c : Char) (s t : String) :
    countChar c (s ++ t) = countChar c s + countChar c t := by
  simp [countChar, String.data_append, List.count_append]

/-- escapeXml output counts zero of either angle bracket. -/
theorem countChar_escapeXml_angle (s : String) :
    countChar '<' (escapeXml (some s)) = 0 ∧ countChar '>' (escapeXml (some s)) = 0 :=
  ⟨List.count_eq_zero.mpr (escapeXml_no_specials s).1,
   List.count_eq_zero.mpr (escapeXml_no_specials s).2.1⟩

set_option maxRecDepth 8192 in
set_option maxHeartbeats 1000000 in
/-- C8: every award-derived string interpolated into the badge SVG passes
through escapeXml, which replaces each occurrence of the five XML-special
characters by its entity (character-wise map) and therefore emits no
markup characters; consequently the number of angle brackets in the
rendered SVG is that of the fixed skeleton, independent of the award
fields and of the formatted date — a malicious title cannot escape its
text element. -/
theorem C8_svg_escaping :
    (∀ s : String, escapeXml (some s) = String.mk ((s.data.map xmlEntityOf).flatten)) ∧
    (∀ s : String, '<' ∉ (escapeXml (some s)).data ∧ '>' ∉ (escapeXml (some s)).data ∧
      '"' ∉ (escapeXml (some s)).data ∧ '\'' ∉ (escapeXml (some s)).data) ∧
    (∀ (fd fd2 : String → String) (a b : BadgeAward) (tier : String),
      countChar '<' (renderBadgeSVG fd a (getTierTemplate tier)) =
        countChar '<' (renderBadgeSVG fd2 b (getTierTemplate tier)) ∧
      countChar '>' (renderBadgeSVG fd a (getTierTemplate tier)) =
        countChar '>' (renderBadgeSVG fd2 b (getTierTemplate tier))) := by
  refine ⟨escapeXml_charwise, escapeXml_no_specials, ?_⟩
  intro fd fd2 a b tier
  constructor <;>
    · simp only [renderBadgeSVG, countChar_append,
        (countChar_escapeXml_angle _).1, (countChar_escapeXml_angle _).2,
        Nat.add_zero, Nat.zero_add]

end AchvWorker
